import Mathlib

/-!
Verification development for `stdlib/public/runtime/ImageInspectionELF.cpp`.

The file is shallowly embedded: the platform services the code calls
(`dlopen` with `RTLD_NOLOAD`, `dlsym`, `dlclose`, `dl_iterate_phdr`,
`dladdr`, `dlerror`) are modelled as fields of an explicit `Platform`
value, process memory is a byte function `Nat → Nat` (little endian, as
`memcpy` into a `uint64_t` reads it on the targeted platforms), addresses
are natural numbers with `0` playing the role of the null pointer, and a
call to `fatalError` is the `fatal` constructor of the `FatalOr` result
type, carrying the image name and the `dlerror` text that the C format
string interpolates.  The externally visible behaviour (invocations of the
`addBlock` accumulation callbacks and of the dl* handle operations) is
recorded as an explicit event trace.
-/

namespace ImageInspectionELF

/-- Identifies which of the two static registries an accumulation callback
belongs to (`addImageProtocolConformanceBlockCallback` resp.
`addImageTypeMetadataRecordBlockCallback` in the C source). -/
inductive RegId where
  | protocolConformance
  | typeMetadata
deriving DecidableEq, Repr

/-- `SectionInfo` from the C source: `{ uint64_t size; const char *data }`,
with `none` standing for the null `data` pointer. -/
structure SectionInfo where
  size : Nat
  data : Option Nat
deriving DecidableEq, Repr

/-- A handle returned by a successful `dlopen`: its `dlsym` table, mapping a
symbol name to the symbol's address. -/
structure Handle where
  symbols : List (String × Nat)
deriving DecidableEq, Repr

/-- Outcome of `dlopen(name, RTLD_LAZY | RTLD_NOLOAD)`.  The code observes
only null/non-null; the environment additionally records why a null return
happened (image not resident, or some other platform error), which the
specification's error taxonomy distinguishes. -/
inductive DlopenResult where
  | ok (h : Handle)
  | failNotResident
  | failOther
deriving DecidableEq, Repr

/-- `Dl_info` as filled in by a successful `dladdr`. -/
structure DlInfo where
  dli_fname : Option String
  dli_fbase : Nat
  dli_sname : Option String
  dli_saddr : Nat
deriving DecidableEq, Repr

/-- The platform environment a run executes against.  `android` models the
`__ANDROID__` preprocessor conditional; `phdrImages` is the sequence of
`dlpi_name` values `dl_iterate_phdr` presents to its callback (`none` for a
null name); `dlerror` is the text `dlerror()` returns after a failed
`dlopen`. -/
structure Platform where
  android : Bool
  mem : Nat → Nat
  dlopenNoload : Option String → DlopenResult
  dlerror : String
  phdrImages : List (Option String)
  dladdr : Nat → Option DlInfo

/-- Observable events of a run: handle operations and invocations of a
registry's accumulation callback `addBlock(data, size)`. -/
inductive Event where
  | dlopenOk (imageName : Option String)
  | dlopenFail (imageName : Option String)
  | dlclose (imageName : Option String)
  | addBlock (reg : RegId) (data : Option Nat) (size : Nat)
deriving DecidableEq, Repr

/-- Result of an operation that may call `fatalError`: `fatal` carries the
image name and the `dlerror` text interpolated into the diagnostic
`"dlopen() failed on %s: %s"`; reaching it terminates the process. -/
inductive FatalOr (α : Type) where
  | fatal (imageName : Option String) (errText : String)
  | ok (val : α)
deriving DecidableEq, Repr

/-- `InspectArgs` from the C source; the callback function pointer is
represented by the `RegId` tag of the registry it belongs to. -/
structure InspectArgs where
  symbolName : String
  addBlock : RegId
  didInitializeLookup : Bool
deriving DecidableEq, Repr

/-- The `ProtocolConformancesSymbol` string constant. -/
def ProtocolConformancesSymbol : String := ".swift2_protocol_conformances_start"

/-- The `TypeMetadataRecordsSymbol` string constant. -/
def TypeMetadataRecordsSymbol : String := ".swift2_type_metadata_start"

/-- Static initializer of `ProtocolConformanceArgs`. -/
def ProtocolConformanceArgs : InspectArgs :=
  { symbolName := ProtocolConformancesSymbol
    addBlock := RegId.protocolConformance
    didInitializeLookup := false }

/-- Static initializer of `TypeMetadataRecordArgs`. -/
def TypeMetadataRecordArgs : InspectArgs :=
  { symbolName := TypeMetadataRecordsSymbol
    addBlock := RegId.typeMetadata
    didInitializeLookup := false }

/-- The process-wide mutable state: the two static `InspectArgs` records. -/
structure GlobalState where
  protocolConformanceArgs : InspectArgs
  typeMetadataRecordArgs : InspectArgs
deriving DecidableEq, Repr

/-- The global state at program start. -/
def initialGlobalState : GlobalState :=
  { protocolConformanceArgs := ProtocolConformanceArgs
    typeMetadataRecordArgs := TypeMetadataRecordArgs }

/-- The unsigned 64-bit value stored little-endian in the 8 bytes at
address `a`, as `memcpy(&size, section, sizeof(uint64_t))` reads it. -/
def readU64 (mem : Nat → Nat) (a : Nat) : Nat :=
  (List.range 8).foldr (fun i acc => acc * 256 + mem (a + i) % 256) 0

/-- `dlsym`: first entry of the handle's symbol table with the given name. -/
def findSymbol : List (String × Nat) → String → Option Nat
  | [], _ => none
  | (n, a) :: rest, s => if n = s then some a else findSymbol rest s

/-- `getSectionInfo` from the C source.  Opens the image with
`RTLD_LAZY | RTLD_NOLOAD`; on a null handle the `__ANDROID__` build returns
the zero-initialized `SectionInfo` while other builds call `fatalError`;
otherwise it looks up the section symbol, reads the `uint64_t` size stored
at the symbol, points `data` 8 bytes past the symbol, and `dlclose`s the
handle before returning. -/
def getSectionInfo (p : Platform) (imageName : Option String)
    (sectionName : String) : FatalOr (SectionInfo × List Event) :=
  match p.dlopenNoload imageName with
  | .failNotResident =>
      if p.android then
        .ok ({ size := 0, data := none }, [.dlopenFail imageName])
      else
        .fatal imageName p.dlerror
  | .failOther =>
      if p.android then
        .ok ({ size := 0, data := none }, [.dlopenFail imageName])
      else
        .fatal imageName p.dlerror
  | .ok h =>
      match findSymbol h.symbols sectionName with
      | some addr =>
          .ok ({ size := readU64 p.mem addr, data := some (addr + 8) },
               [.dlopenOk imageName, .dlclose imageName])
      | none =>
          .ok ({ size := 0, data := none },
               [.dlopenOk imageName, .dlclose imageName])

/-- `iteratePHDRCallback` from the C source: sets `didInitializeLookup`,
skips a null or empty `dlpi_name`, and otherwise looks the section up in
that image, invoking `addBlock` when the discovered size is positive. -/
def iteratePHDRCallback (p : Platform) (args : InspectArgs)
    (fname : Option String) : FatalOr (InspectArgs × List Event) :=
  let args' := { args with didInitializeLookup := true }
  match fname with
  | none => .ok (args', [])
  | some s =>
      if s = "" then
        .ok (args', [])
      else
        match getSectionInfo p (some s) args'.symbolName with
        | .fatal i e => .fatal i e
        | .ok (block, evs) =>
            if block.size > 0 then
              .ok (args', evs ++ [.addBlock args'.addBlock block.data block.size])
            else
              .ok (args', evs)

/-- The iteration performed by `dl_iterate_phdr`: the callback is applied to
every enumerated image in order (the callback always returns 0, so the walk
never stops early; a `fatalError` terminates the process and hence the
walk). -/
def runPHDRList (p : Platform) (args : InspectArgs) :
    List (Option String) → FatalOr (InspectArgs × List Event)
  | [] => .ok (args, [])
  | f :: fs =>
      match iteratePHDRCallback p args f with
      | .fatal i e => .fatal i e
      | .ok (args', evs) =>
          match runPHDRList p args' fs with
          | .fatal i e => .fatal i e
          | .ok (args'', evs') => .ok (args'', evs ++ evs')

/-- `dl_iterate_phdr(iteratePHDRCallback, inspectArgs)`. -/
def dlIteratePhdr (p : Platform) (args : InspectArgs) :
    FatalOr (InspectArgs × List Event) :=
  runPHDRList p args p.phdrImages

/-- The image-name computation at the head of `addBlockInImage`: a null
address leaves `fname` null (meaning the main executable); a non-null
address is resolved through `dladdr`, and a failed resolution or a null
`dli_fname` makes the function return early (`none` here). -/
def resolveImageName (p : Platform) (addr : Nat) : Option (Option String) :=
  if addr = 0 then
    some none
  else
    match p.dladdr addr with
    | none => none
    | some info =>
        match info.dli_fname with
        | none => none
        | some f => some (some f)

/-- `addBlockInImage` from the C source. -/
def addBlockInImage (p : Platform) (args : InspectArgs) (addr : Nat) :
    FatalOr (List Event) :=
  match resolveImageName p addr with
  | none => .ok []
  | some fname =>
      match getSectionInfo p fname args.symbolName with
      | .fatal i e => .fatal i e
      | .ok (block, evs) =>
          if block.size > 0 then
            .ok (evs ++ [.addBlock args.addBlock block.data block.size])
          else
            .ok evs

/-- `initializeSectionLookup` from the C source: first the main executable
(null image name, via the null-address path of `addBlockInImage`), then the
`dl_iterate_phdr` walk over the already-loaded images. -/
def initializeSectionLookup (p : Platform) (args : InspectArgs) :
    FatalOr (InspectArgs × List Event) :=
  match addBlockInImage p args 0 with
  | .fatal i e => .fatal i e
  | .ok evs =>
      match dlIteratePhdr p args with
      | .fatal i e => .fatal i e
      | .ok (args', evs') => .ok (args', evs ++ evs')

/-- `swift::initializeProtocolConformanceLookup`. -/
def initializeProtocolConformanceLookup (p : Platform) (g : GlobalState) :
    FatalOr (GlobalState × List Event) :=
  match initializeSectionLookup p g.protocolConformanceArgs with
  | .fatal i e => .fatal i e
  | .ok (args', evs) => .ok ({ g with protocolConformanceArgs := args' }, evs)

/-- `swift::initializeTypeMetadataRecordLookup`. -/
def initializeTypeMetadataRecordLookup (p : Platform) (g : GlobalState) :
    FatalOr (GlobalState × List Event) :=
  match initializeSectionLookup p g.typeMetadataRecordArgs with
  | .fatal i e => .fatal i e
  | .ok (args', evs) => .ok ({ g with typeMetadataRecordArgs := args' }, evs)

/-- `swift_addNewDSOImage` from the C source: for each of the two static
registries, if its `didInitializeLookup` flag is set, run
`addBlockInImage` on the notified address.  Neither branch mutates the
registries. -/
def swift_addNewDSOImage (p : Platform) (g : GlobalState) (addr : Nat) :
    FatalOr (GlobalState × List Event) :=
  match (if g.protocolConformanceArgs.didInitializeLookup then
           addBlockInImage p g.protocolConformanceArgs addr
         else
           .ok []) with
  | .fatal i e => .fatal i e
  | .ok evs₁ =>
      match (if g.typeMetadataRecordArgs.didInitializeLookup then
               addBlockInImage p g.typeMetadataRecordArgs addr
             else
               .ok []) with
      | .fatal i e => .fatal i e
      | .ok evs₂ => .ok (g, evs₁ ++ evs₂)

/-- `SymbolInfo` from `ImageInspection.h`, as `swift::lookupSymbol` fills
it in. -/
structure SymbolInfo where
  fileName : Option String
  baseAddress : Nat
  symbolName : Option String
  symbolAddress : Nat
deriving DecidableEq, Repr

/-- `swift::lookupSymbol`: when `dladdr` fails it returns 0 and leaves the
caller's record as it was, otherwise it fills every field from `Dl_info`
and returns 1. -/
def lookupSymbol (p : Platform) (address : Nat) (info : SymbolInfo) :
    Nat × SymbolInfo :=
  match p.dladdr address with
  | none => (0, info)
  | some d =>
      (1, { fileName := d.dli_fname
            baseAddress := d.dli_fbase
            symbolName := d.dli_sname
            symbolAddress := d.dli_saddr })

/-- The registry (if any) whose accumulation callback an event invokes. -/
def Event.regOf : Event → Option RegId
  | .addBlock r _ _ => some r
  | _ => none

/-- The image a handle-opening event targets (`none` for other events). -/
def Event.queryTarget : Event → Option (Option String)
  | .dlopenOk n => some n
  | .dlopenFail n => some n
  | _ => none

/-- Number of `dlopen` attempts in a trace that target image `m`. -/
def countQueries (m : Option String) : List Event → Nat
  | [] => 0
  | e :: rest =>
      (if Event.queryTarget e = some m then 1 else 0) + countQueries m rest

/-- Number of occurrences of the name `m` in an enumeration list. -/
def countName (m : Option String) : List (Option String) → Nat
  | [] => 0
  | n :: rest => (if n = m then 1 else 0) + countName m rest

/-- Whether a `FatalOr` result is the non-fatal constructor. -/
def FatalOr.isOk {α : Type} : FatalOr α → Bool
  | .ok _ => true
  | .fatal _ _ => false

/-- The event trace of a `getSectionInfo`-shaped result (empty when the
process died inside the call). -/
def sectionTrace : FatalOr (SectionInfo × List Event) → List Event
  | .ok (_, evs) => evs
  | .fatal _ _ => []

/-! ### Concrete fixtures

Small closed platform values used to evaluate the theorems on concrete
inputs. -/

/-- A dlsym table holding only the protocol-conformance section symbol, at
address 100. -/
def demoHandle : Handle := { symbols := [(ProtocolConformancesSymbol, 100)] }

/-- Memory whose byte at address 100 is 16 and zero elsewhere, so the
64-bit length prefix at address 100 reads 16. -/
def demoMem : Nat → Nat := fun a => if a = 100 then 16 else 0

/-- A non-Android platform on which every image opens to `demoHandle` and
one image named `libdemo.so` is enumerated; `dladdr` never resolves. -/
def demoPlatform : Platform :=
  { android := false
    mem := demoMem
    dlopenNoload := fun _ => .ok demoHandle
    dlerror := "error text"
    phdrImages := [some "libdemo.so"]
    dladdr := fun _ => none }

/-- A non-Android platform on which no image is resident: every `dlopen`
with `RTLD_NOLOAD` returns null because the image is not loaded. -/
def nonResidentPlatform : Platform :=
  { android := false
    mem := fun _ => 0
    dlopenNoload := fun _ => .failNotResident
    dlerror := "cannot open shared object file"
    phdrImages := []
    dladdr := fun _ => none }

/-- An Android platform on which `dlopen` fails for a reason other than the
image not being resident. -/
def androidPlatform : Platform :=
  { android := true
    mem := fun _ => 0
    dlopenNoload := fun _ => .failOther
    dlerror := "unexpected dlopen failure"
    phdrImages := []
    dladdr := fun _ => none }

/-- A platform whose `dladdr` resolves exactly the address 500, to an image
`libdemo.so` based at 400 with nearest symbol `swift_demo` at 480. -/
def resolvePlatform : Platform :=
  { android := false
    mem := fun _ => 0
    dlopenNoload := fun _ => .ok demoHandle
    dlerror := "error text"
    phdrImages := []
    dladdr := fun a =>
      if a = 500 then
        some { dli_fname := some "libdemo.so", dli_fbase := 400,
               dli_sname := some "swift_demo", dli_saddr := 480 }
      else none }

/-- Global state in which only the type-metadata registry is initialized. -/
def halfReadyGlobalState : GlobalState :=
  { protocolConformanceArgs := ProtocolConformanceArgs
    typeMetadataRecordArgs :=
      { TypeMetadataRecordArgs with didInitializeLookup := true } }

/-- Global state in which both registries are initialized. -/
def readyGlobalState : GlobalState :=
  { protocolConformanceArgs :=
      { ProtocolConformanceArgs with didInitializeLookup := true }
    typeMetadataRecordArgs :=
      { TypeMetadataRecordArgs with didInitializeLookup := true } }

/-! ### Helper lemmas -/

/-- The trace of a non-fatal `getSectionInfo` call is an open/close pair, or
a single failed-open attempt on the Android build. -/
theorem getSectionInfo_ok_trace {p : Platform} {n : Option String} {s : String}
    {si : SectionInfo} {evs : List Event}
    (hok : getSectionInfo p n s = .ok (si, evs)) :
    evs = [.dlopenOk n, .dlclose n] ∨ evs = [.dlopenFail n] := by
  cases hop : p.dlopenNoload n with
  | ok hd =>
      cases hsym : findSymbol hd.symbols s <;>
        simp [getSectionInfo, hop, hsym] at hok <;>
        exact Or.inl hok.2.symm
  | failNotResident =>
      by_cases ha : p.android <;> simp [getSectionInfo, hop, ha] at hok
      exact Or.inr hok.2.symm
  | failOther =>
      by_cases ha : p.android <;> simp [getSectionInfo, hop, ha] at hok
      exact Or.inr hok.2.symm

/-- A non-fatal `getSectionInfo` call attempts exactly one `dlopen`, on the
image it was given. -/
theorem getSectionInfo_counts {p : Platform} {n : Option String} {s : String}
    {si : SectionInfo} {evs : List Event}
    (hok : getSectionInfo p n s = .ok (si, evs)) (m : Option String) :
    countQueries m evs = if n = m then 1 else 0 := by
  rcases getSectionInfo_ok_trace hok with h | h <;> subst h <;>
    simp [countQueries, Event.queryTarget]

/-- `getSectionInfo` itself never invokes an accumulation callback. -/
theorem getSectionInfo_no_addBlock {p : Platform} {n : Option String}
    {s : String} {si : SectionInfo} {evs : List Event}
    (hok : getSectionInfo p n s = .ok (si, evs)) :
    ∀ r d sz, Event.addBlock r d sz ∉ evs := by
  rcases getSectionInfo_ok_trace hok with h | h <;> subst h <;> simp

/-- `countQueries` distributes over trace concatenation. -/
theorem countQueries_append (m : Option String) (a b : List Event) :
    countQueries m (a ++ b) = countQueries m a + countQueries m b := by
  induction a with
  | nil => simp [countQueries]
  | cons e rest ih => simp [countQueries, ih]; omega

/-- A non-fatal run of the enumeration callback always leaves the argument
record equal to the input with `didInitializeLookup` set. -/
theorem iteratePHDRCallback_args {p : Platform} {args args' : InspectArgs}
    {f : Option String} {evs : List Event}
    (h : iteratePHDRCallback p args f = .ok (args', evs)) :
    args' = { args with didInitializeLookup := true } := by
  cases f with
  | none =>
      simp [iteratePHDRCallback] at h
      exact h.1.symm
  | some s =>
      by_cases hs : s = ""
      · simp [iteratePHDRCallback, hs] at h
        exact h.1.symm
      · cases hsec : getSectionInfo p (some s) args.symbolName with
        | fatal i e => simp [iteratePHDRCallback, hs, hsec] at h
        | ok v =>
            obtain ⟨block, evs₀⟩ := v
            by_cases hsz : block.size > 0 <;>
              simp [iteratePHDRCallback, hs, hsec, hsz] at h <;>
              exact h.1.symm

/-- The enumeration callback never queries the null image name or an empty
image name, and queries a nonempty name exactly when it is the enumerated
entry. -/
theorem iteratePHDRCallback_counts {p : Platform} {args args' : InspectArgs}
    {f : Option String} {evs : List Event}
    (h : iteratePHDRCallback p args f = .ok (args', evs)) :
    countQueries none evs = 0 ∧
      ∀ s : String, countQueries (some s) evs =
        if s = "" then 0 else if f = some s then 1 else 0 := by
  cases f with
  | none =>
      simp [iteratePHDRCallback] at h
      obtain ⟨-, he⟩ := h
      subst he
      simp [countQueries]
  | some t =>
      by_cases ht : t = ""
      · simp [iteratePHDRCallback, ht] at h
        obtain ⟨-, he⟩ := h
        subst he
        subst ht
        refine ⟨by simp [countQueries], fun s => ?_⟩
        by_cases hs : s = "" <;> simp [countQueries, hs]
        rw [if_neg fun hst => hs hst.symm]
      · cases hsec : getSectionInfo p (some t) args.symbolName with
        | fatal i e => simp [iteratePHDRCallback, ht, hsec] at h
        | ok v =>
            obtain ⟨block, evs₀⟩ := v
            have hc := getSectionInfo_counts hsec
            by_cases hsz : block.size > 0 <;>
              simp [iteratePHDRCallback, ht, hsec, hsz] at h <;>
              obtain ⟨-, he⟩ := h <;> subst he
            · refine ⟨?_, fun s => ?_⟩
              · rw [countQueries_append]
                simpa [countQueries, Event.queryTarget] using hc none
              · rw [countQueries_append]
                have hcs := hc (some s)
                by_cases hs : s = "" <;>
                  simp_all [countQueries, Event.queryTarget]
            · refine ⟨?_, fun s => ?_⟩
              · simpa using hc none
              · have hcs := hc (some s)
                by_cases hs : s = "" <;> simp_all

/-- Every accumulation callback the enumeration callback fires carries a
positive size and the registry tag stored in the argument record. -/
theorem iteratePHDRCallback_addBlock {p : Platform} {args args' : InspectArgs}
    {f : Option String} {evs : List Event}
    (h : iteratePHDRCallback p args f = .ok (args', evs)) :
    ∀ r d sz, Event.addBlock r d sz ∈ evs → 0 < sz ∧ r = args.addBlock := by
  cases f with
  | none =>
      simp [iteratePHDRCallback] at h
      obtain ⟨-, he⟩ := h
      subst he
      simp
  | some t =>
      by_cases ht : t = ""
      · simp [iteratePHDRCallback, ht] at h
        obtain ⟨-, he⟩ := h
        subst he
        simp
      · cases hsec : getSectionInfo p (some t) args.symbolName with
        | fatal i e => simp [iteratePHDRCallback, ht, hsec] at h
        | ok v =>
            obtain ⟨block, evs₀⟩ := v
            have hno := getSectionInfo_no_addBlock hsec
            by_cases hsz : block.size > 0 <;>
              simp [iteratePHDRCallback, ht, hsec, hsz] at h <;>
              obtain ⟨-, he⟩ := h <;> subst he <;> intro r d sz hmem
            · rcases List.mem_append.mp hmem with hin | hin
              · exact absurd hin (hno r d sz)
              · simp at hin
                exact ⟨hin.2.2 ▸ hsz, hin.1⟩
            · exact absurd hmem (hno r d sz)

/-- A non-fatal enumeration walk leaves the argument record unchanged when
no image was enumerated, and otherwise only sets `didInitializeLookup`. -/
theorem runPHDRList_args :
    ∀ (l : List (Option String)) (p : Platform) (args args' : InspectArgs)
      (evs : List Event), runPHDRList p args l = .ok (args', evs) →
      args' = args ∨ args' = { args with didInitializeLookup := true } := by
  intro l
  induction l with
  | nil =>
      intro p args args' evs h
      simp [runPHDRList] at h
      obtain ⟨ha, -⟩ := h
      subst ha
      exact Or.inl rfl
  | cons f fs ih =>
      intro p args args' evs h
      cases hcb : iteratePHDRCallback p args f with
      | fatal i e => simp [runPHDRList, hcb] at h
      | ok v =>
          obtain ⟨args₁, evs₁⟩ := v
          cases hrest : runPHDRList p args₁ fs with
          | fatal i e => simp [runPHDRList, hcb, hrest] at h
          | ok w =>
              obtain ⟨args₂, evs₂⟩ := w
              simp [runPHDRList, hcb, hrest] at h
              obtain ⟨ha, -⟩ := h
              subst ha
              have h1 := iteratePHDRCallback_args hcb
              subst h1
              rcases ih p _ args₂ evs₂ hrest with h2 | h2 <;>
                subst h2 <;> exact Or.inr rfl

/-- A non-fatal enumeration walk never queries the null image name or an
empty name, and queries each nonempty name once per enumerated entry with
that name. -/
theorem runPHDRList_counts :
    ∀ (l : List (Option String)) (p : Platform) (args args' : InspectArgs)
      (evs : List Event), runPHDRList p args l = .ok (args', evs) →
      countQueries none evs = 0 ∧
        ∀ s : String, countQueries (some s) evs =
          if s = "" then 0 else countName (some s) l := by
  intro l
  induction l with
  | nil =>
      intro p args args' evs h
      simp [runPHDRList] at h
      obtain ⟨-, he⟩ := h
      subst he
      refine ⟨rfl, fun s => ?_⟩
      by_cases hs : s = "" <;> simp [countQueries, countName, hs]
  | cons f fs ih =>
      intro p args args' evs h
      cases hcb : iteratePHDRCallback p args f with
      | fatal i e => simp [runPHDRList, hcb] at h
      | ok v =>
          obtain ⟨args₁, evs₁⟩ := v
          cases hrest : runPHDRList p args₁ fs with
          | fatal i e => simp [runPHDRList, hcb, hrest] at h
          | ok w =>
              obtain ⟨args₂, evs₂⟩ := w
              simp [runPHDRList, hcb, hrest] at h
              obtain ⟨-, he⟩ := h
              subst he
              obtain ⟨hc0, hcs⟩ := iteratePHDRCallback_counts hcb
              obtain ⟨hr0, hrs⟩ := ih p args₁ args₂ evs₂ hrest
              refine ⟨by rw [countQueries_append, hc0, hr0], fun s => ?_⟩
              rw [countQueries_append, hcs s, hrs s]
              by_cases hs : s = "" <;> simp [countName, hs]

/-- Every accumulation callback fired during a non-fatal enumeration walk
carries a positive size and the registry tag of the walked record. -/
theorem runPHDRList_addBlock :
    ∀ (l : List (Option String)) (p : Platform) (args args' : InspectArgs)
      (evs : List Event), runPHDRList p args l = .ok (args', evs) →
      ∀ r d sz, Event.addBlock r d sz ∈ evs → 0 < sz ∧ r = args.addBlock := by
  intro l
  induction l with
  | nil =>
      intro p args args' evs h
      simp [runPHDRList] at h
      obtain ⟨-, he⟩ := h
      subst he
      simp
  | cons f fs ih =>
      intro p args args' evs h
      cases hcb : iteratePHDRCallback p args f with
      | fatal i e => simp [runPHDRList, hcb] at h
      | ok v =>
          obtain ⟨args₁, evs₁⟩ := v
          cases hrest : runPHDRList p args₁ fs with
          | fatal i e => simp [runPHDRList, hcb, hrest] at h
          | ok w =>
              obtain ⟨args₂, evs₂⟩ := w
              simp [runPHDRList, hcb, hrest] at h
              obtain ⟨-, he⟩ := h
              subst he
              intro r d sz hmem
              rcases List.mem_append.mp hmem with hin | hin
              · exact iteratePHDRCallback_addBlock hcb r d sz hin
              · have h1 := iteratePHDRCallback_args hcb
                subst h1
                exact ih p _ args₂ evs₂ hrest r d sz hin

/-- The null-address path of `addBlockInImage` queries exactly the main
executable (the null image name), once. -/
theorem addBlockInImage_null_counts {p : Platform} {args : InspectArgs}
    {evs : List Event} (h : addBlockInImage p args 0 = .ok evs) :
    countQueries none evs = 1 ∧ ∀ s : String, countQueries (some s) evs = 0 := by
  have hres : resolveImageName p 0 = some none := by simp [resolveImageName]
  cases hsec : getSectionInfo p none args.symbolName with
  | fatal i e => simp [addBlockInImage, hres, hsec] at h
  | ok v =>
      obtain ⟨block, evs₀⟩ := v
      have hc := getSectionInfo_counts hsec
      by_cases hsz : block.size > 0 <;>
        simp [addBlockInImage, hres, hsec, hsz] at h <;> subst h
      · refine ⟨?_, fun s => ?_⟩
        · rw [countQueries_append]
          simpa [countQueries] using hc none
        · rw [countQueries_append]
          have hcs := hc (some s)
          simp_all [countQueries, Event.queryTarget]
      · refine ⟨by simpa using hc none, fun s => ?_⟩
        simpa using hc (some s)

/-- Every accumulation callback fired by `addBlockInImage` carries a
positive size and the registry tag of the argument record. -/
theorem addBlockInImage_addBlock {p : Platform} {args : InspectArgs}
    {addr : Nat} {evs : List Event} (h : addBlockInImage p args addr = .ok evs) :
    ∀ r d sz, Event.addBlock r d sz ∈ evs → 0 < sz ∧ r = args.addBlock := by
  cases hres : resolveImageName p addr with
  | none =>
      simp [addBlockInImage, hres] at h
      subst h
      simp
  | some fname =>
      cases hsec : getSectionInfo p fname args.symbolName with
      | fatal i e => simp [addBlockInImage, hres, hsec] at h
      | ok v =>
          obtain ⟨block, evs₀⟩ := v
          have hno := getSectionInfo_no_addBlock hsec
          by_cases hsz : block.size > 0 <;>
            simp [addBlockInImage, hres, hsec, hsz] at h <;> subst h <;>
            intro r d sz hmem
          · rcases List.mem_append.mp hmem with hin | hin
            · exact absurd hin (hno r d sz)
            · simp at hin
              exact ⟨hin.2.2 ▸ hsz, hin.1⟩
          · exact absurd hmem (hno r d sz)

/-- `countName` vanishes on lists not containing the name. -/
theorem countName_eq_zero {m : Option String} :
    ∀ {l : List (Option String)}, m ∉ l → countName m l = 0 := by
  intro l
  induction l with
  | nil => intro _; rfl
  | cons n rest ih =>
      intro hm
      simp [List.mem_cons] at hm
      simp only [countName]
      rw [if_neg fun hnm => hm.1 hnm.symm, ih hm.2]

/-- On a duplicate-free list every name occurs at most once. -/
theorem countName_nodup :
    ∀ {l : List (Option String)}, l.Nodup → ∀ m, countName m l ≤ 1 := by
  intro l
  induction l with
  | nil => intro _ m; simp [countName]
  | cons n rest ih =>
      intro hnd m
      rw [List.nodup_cons] at hnd
      by_cases hm : n = m
      · subst hm
        simp [countName, countName_eq_zero hnd.1]
      · simp [countName, hm]
        exact ih hnd.2 m

/-- A non-fatal `swift_addNewDSOImage` run leaves the global state unchanged
and concatenates the per-registry traces, each branch firing only when the
registry's flag is set. -/
theorem swift_addNewDSOImage_ok {p : Platform} {g : GlobalState} {addr : Nat}
    {g' : GlobalState} {evs : List Event}
    (h : swift_addNewDSOImage p g addr = .ok (g', evs)) :
    g' = g ∧ ∃ evs₁ evs₂,
      (if g.protocolConformanceArgs.didInitializeLookup then
         addBlockInImage p g.protocolConformanceArgs addr
       else .ok []) = .ok evs₁ ∧
      (if g.typeMetadataRecordArgs.didInitializeLookup then
         addBlockInImage p g.typeMetadataRecordArgs addr
       else .ok []) = .ok evs₂ ∧
      evs = evs₁ ++ evs₂ := by
  cases h1 : (if g.protocolConformanceArgs.didInitializeLookup then
                addBlockInImage p g.protocolConformanceArgs addr
              else .ok []) with
  | fatal i e => simp [swift_addNewDSOImage, h1] at h
  | ok evs₁ =>
      cases h2 : (if g.typeMetadataRecordArgs.didInitializeLookup then
                    addBlockInImage p g.typeMetadataRecordArgs addr
                  else .ok []) with
      | fatal i e => simp [swift_addNewDSOImage, h1, h2] at h
      | ok evs₂ =>
          simp [swift_addNewDSOImage, h1, h2] at h
          obtain ⟨hg, he⟩ := h
          subst hg
          exact ⟨rfl, evs₁, evs₂, rfl, rfl, he.symm⟩

/-! ### Claim theorems -/

/-- C1: For every image whose handle opens and in which the named section
symbol is present, `getSectionInfo` returns a range whose length equals the
unsigned 64-bit value stored in the first 8 bytes at the symbol's address
and whose data pointer is exactly 8 bytes past the symbol's address. -/
theorem getSectionInfo_present_returns_prefix_range (p : Platform)
    (imageName : Option String) (sectionName : String) (hd : Handle)
    (addr : Nat) (hopen : p.dlopenNoload imageName = .ok hd)
    (hsym : findSymbol hd.symbols sectionName = some addr) :
    getSectionInfo p imageName sectionName =
      .ok ({ size := readU64 p.mem addr, data := some (addr + 8) },
           [.dlopenOk imageName, .dlclose imageName]) := by
  simp [getSectionInfo, hopen, hsym]

/-- Witness for C1: on `demoPlatform` the conformance symbol sits at
address 100, whose length prefix reads 16, and the returned range starts at
108. -/
theorem getSectionInfo_present_returns_prefix_range_witness :
    getSectionInfo demoPlatform (some "libdemo.so") ProtocolConformancesSymbol =
      .ok ({ size := readU64 demoPlatform.mem 100, data := some (100 + 8) },
           [.dlopenOk (some "libdemo.so"), .dlclose (some "libdemo.so")]) :=
  getSectionInfo_present_returns_prefix_range demoPlatform (some "libdemo.so")
    ProtocolConformancesSymbol demoHandle 100 rfl rfl

/-- C2 counterexample: on a non-Android build, an image that is not
resident (so `dlopen` with `RTLD_NOLOAD` fails precisely because the image
is not loaded) makes `getSectionInfo` terminate the process via
`fatalError`, not return the absent result as the claim states. -/
theorem getSectionInfo_notResident_fatal :
    getSectionInfo nonResidentPlatform (some "libmissing.so")
        ProtocolConformancesSymbol =
      .fatal (some "libmissing.so") "cannot open shared object file" := rfl

/-- C2 (amended): whether an open failure is fatal depends on the build
platform, not on the failure reason: on Android builds any `dlopen` failure
returns the absent result, while on other ELF builds any `dlopen` failure
terminates the process with a diagnostic naming the image and the
platform's `dlerror` text. -/
theorem getSectionInfo_openFailure_platform_dependent (p : Platform)
    (imageName : Option String) (sectionName : String)
    (hfail : p.dlopenNoload imageName = .failNotResident ∨
             p.dlopenNoload imageName = .failOther) :
    getSectionInfo p imageName sectionName =
      if p.android then
        .ok ({ size := 0, data := none }, [.dlopenFail imageName])
      else
        .fatal imageName p.dlerror := by
  rcases hfail with h | h <;> by_cases ha : p.android <;>
    simp [getSectionInfo, h, ha]

/-- Witness for the amended C2: on the Android platform an open failure
whose reason is not "not resident" still yields the absent result. -/
theorem getSectionInfo_openFailure_platform_dependent_witness :
    getSectionInfo androidPlatform (some "libghost.so")
        TypeMetadataRecordsSymbol =
      if androidPlatform.android then
        .ok ({ size := 0, data := none }, [.dlopenFail (some "libghost.so")])
      else
        .fatal (some "libghost.so") androidPlatform.dlerror :=
  getSectionInfo_openFailure_platform_dependent androidPlatform
    (some "libghost.so") TypeMetadataRecordsSymbol (Or.inr rfl)

/-- C9: whenever the image handle was successfully opened, `getSectionInfo`
returns normally and its trace is exactly the open followed by the release
of that handle — the handle is `dlclose`d before returning, both when the
section symbol is found and when it is absent. -/
theorem handle_released_regardless_of_outcome :
    ∀ (p : Platform) (imageName : Option String) (sectionName : String)
      (hd : Handle), p.dlopenNoload imageName = .ok hd →
      (getSectionInfo p imageName sectionName).isOk = true ∧
      sectionTrace (getSectionInfo p imageName sectionName) =
        [.dlopenOk imageName, .dlclose imageName] := by
  intro p imageName sectionName hd hopen
  cases hsym : findSymbol hd.symbols sectionName <;>
    simp [getSectionInfo, hopen, hsym, FatalOr.isOk, sectionTrace]

/-- Witness for C9: on `demoPlatform` the type-metadata symbol is absent
from the opened handle, and the trace is still open-then-close. -/
theorem handle_released_regardless_of_outcome_witness :
    (getSectionInfo demoPlatform (some "libdemo.so")
        TypeMetadataRecordsSymbol).isOk = true ∧
    sectionTrace (getSectionInfo demoPlatform (some "libdemo.so")
        TypeMetadataRecordsSymbol) =
      [.dlopenOk (some "libdemo.so"), .dlclose (some "libdemo.so")] :=
  handle_released_regardless_of_outcome demoPlatform (some "libdemo.so")
    TypeMetadataRecordsSymbol demoHandle rfl

/-- C10: when `dladdr` fails, `lookupSymbol` returns 0 and hands back the
caller's `SymbolInfo` record exactly as it was; the record is (fully)
written only on the success path, which returns 1. -/
theorem lookupSymbol_failure_leaves_record :
    ∀ (p : Platform) (address : Nat) (info : SymbolInfo),
      (p.dladdr address = none →
        lookupSymbol p address info = (0, info)) ∧
      (∀ d : DlInfo, p.dladdr address = some d →
        (lookupSymbol p address info).1 = 1 ∧
        (lookupSymbol p address info).2 =
          { fileName := d.dli_fname, baseAddress := d.dli_fbase,
            symbolName := d.dli_sname, symbolAddress := d.dli_saddr }) := by
  intro p address info
  constructor
  · intro h
    simp [lookupSymbol, h]
  · intro d h
    simp [lookupSymbol, h]

/-- Witness for C10: `demoPlatform.dladdr` fails on address 999 and the
caller's record comes back untouched. -/
theorem lookupSymbol_failure_leaves_record_witness :
    lookupSymbol demoPlatform 999
        { fileName := some "f", baseAddress := 1,
          symbolName := none, symbolAddress := 2 } =
      (0, { fileName := some "f", baseAddress := 1,
            symbolName := none, symbolAddress := 2 }) :=
  (lookupSymbol_failure_leaves_record demoPlatform 999
      { fileName := some "f", baseAddress := 1,
        symbolName := none, symbolAddress := 2 }).1 rfl

/-- C3: the `didInitializeLookup` flag starts false for both registries, is
set to true only inside the image-enumeration callback (an enumeration with
no callback invocations leaves the record unchanged, so it is set neither
before the enumeration call nor after it returns), and once true it is
never reset by `initializeSectionLookup` or `swift_addNewDSOImage`. -/
theorem didInitializeLookup_lifecycle :
    (initialGlobalState.protocolConformanceArgs.didInitializeLookup = false ∧
     initialGlobalState.typeMetadataRecordArgs.didInitializeLookup = false) ∧
    (∀ (p : Platform) (args args' : InspectArgs) (fname : Option String)
       (evs : List Event),
       iteratePHDRCallback p args fname = .ok (args', evs) →
       args'.didInitializeLookup = true) ∧
    (∀ (p : Platform) (args args' : InspectArgs) (evs : List Event),
       p.phdrImages = [] →
       initializeSectionLookup p args = .ok (args', evs) →
       args' = args) ∧
    (∀ (p : Platform) (args args' : InspectArgs) (evs : List Event),
       initializeSectionLookup p args = .ok (args', evs) →
       args.didInitializeLookup = true → args'.didInitializeLookup = true) ∧
    (∀ (p : Platform) (g : GlobalState) (addr : Nat) (g' : GlobalState)
       (evs : List Event),
       swift_addNewDSOImage p g addr = .ok (g', evs) → g' = g) := by
  refine ⟨⟨rfl, rfl⟩, ?_, ?_, ?_, ?_⟩
  · intro p args args' fname evs h
    rw [iteratePHDRCallback_args h]
  · intro p args args' evs hemp h
    cases hm : addBlockInImage p args 0 with
    | fatal i e => simp [initializeSectionLookup, hm] at h
    | ok evs₀ =>
        cases hrun : dlIteratePhdr p args with
        | fatal i e => simp [initializeSectionLookup, hm, hrun] at h
        | ok w =>
            obtain ⟨args₂, evs₂⟩ := w
            simp [initializeSectionLookup, hm, hrun] at h
            obtain ⟨ha, -⟩ := h
            subst ha
            simp [dlIteratePhdr, hemp, runPHDRList] at hrun
            obtain ⟨h1, -⟩ := hrun
            subst h1
            rfl
  · intro p args args' evs h hflag
    cases hm : addBlockInImage p args 0 with
    | fatal i e => simp [initializeSectionLookup, hm] at h
    | ok evs₀ =>
        cases hrun : dlIteratePhdr p args with
        | fatal i e => simp [initializeSectionLookup, hm, hrun] at h
        | ok w =>
            obtain ⟨args₂, evs₂⟩ := w
            simp [initializeSectionLookup, hm, hrun] at h
            obtain ⟨ha, -⟩ := h
            subst ha
            rcases runPHDRList_args p.phdrImages p args args₂ evs₂ hrun with
              h2 | h2 <;> subst h2
            · exact hflag
            · rfl
  · intro p g addr g' evs h
    exact (swift_addNewDSOImage_ok h).1

/-- Witness for C3: running the enumeration callback on `demoPlatform`
leaves the flag set. -/
theorem didInitializeLookup_lifecycle_witness :
    ({ symbolName := ProtocolConformancesSymbol
       addBlock := RegId.protocolConformance
       didInitializeLookup := true } : InspectArgs).didInitializeLookup
      = true :=
  didInitializeLookup_lifecycle.2.1 demoPlatform ProtocolConformanceArgs
    { symbolName := ProtocolConformancesSymbol
      addBlock := RegId.protocolConformance
      didInitializeLookup := true }
    (some "libdemo.so")
    [.dlopenOk (some "libdemo.so"), .dlclose (some "libdemo.so"),
     .addBlock RegId.protocolConformance (some (100 + 8)) 16]
    rfl

/-- C4: a registry whose flag is still false contributes no events at all
to a load notification — in particular zero accumulation callbacks — while
a registry whose flag is true is still notified independently (the
notification's trace is exactly that registry's `addBlockInImage` run);
with both flags false the notification is a complete no-op. -/
theorem uninitialized_registry_skipped :
    (∀ (p : Platform) (g : GlobalState) (addr : Nat) (g' : GlobalState)
       (evs : List Event),
       g.protocolConformanceArgs.didInitializeLookup = false →
       g.typeMetadataRecordArgs.addBlock = RegId.typeMetadata →
       swift_addNewDSOImage p g addr = .ok (g', evs) →
       (∀ e ∈ evs, Event.regOf e ≠ some RegId.protocolConformance) ∧
       (g.typeMetadataRecordArgs.didInitializeLookup = true →
         addBlockInImage p g.typeMetadataRecordArgs addr = .ok evs)) ∧
    (∀ (p : Platform) (g : GlobalState) (addr : Nat) (g' : GlobalState)
       (evs : List Event),
       g.typeMetadataRecordArgs.didInitializeLookup = false →
       g.protocolConformanceArgs.addBlock = RegId.protocolConformance →
       swift_addNewDSOImage p g addr = .ok (g', evs) →
       (∀ e ∈ evs, Event.regOf e ≠ some RegId.typeMetadata) ∧
       (g.protocolConformanceArgs.didInitializeLookup = true →
         addBlockInImage p g.protocolConformanceArgs addr = .ok evs)) ∧
    (∀ (p : Platform) (g : GlobalState) (addr : Nat),
       g.protocolConformanceArgs.didInitializeLookup = false →
       g.typeMetadataRecordArgs.didInitializeLookup = false →
       swift_addNewDSOImage p g addr = .ok (g, [])) := by
  refine ⟨?_, ?_, ?_⟩
  · intro p g addr g' evs hpc hcb h
    obtain ⟨-, evs₁, evs₂, h1, h2, he⟩ := swift_addNewDSOImage_ok h
    rw [hpc] at h1
    simp at h1
    subst h1
    simp at he
    subst he
    cases htm : g.typeMetadataRecordArgs.didInitializeLookup with
    | true =>
        rw [htm] at h2
        simp at h2
        refine ⟨fun e he' => ?_, fun _ => h2⟩
        cases e with
        | addBlock r d sz =>
            have hr := (addBlockInImage_addBlock h2 r d sz he').2
            rw [hcb] at hr
            subst hr
            simp [Event.regOf]
        | dlopenOk n => simp [Event.regOf]
        | dlopenFail n => simp [Event.regOf]
        | dlclose n => simp [Event.regOf]
    | false =>
        rw [htm] at h2
        simp at h2
        subst h2
        exact ⟨by simp, fun hcon => Bool.noConfusion hcon⟩
  · intro p g addr g' evs htm hcb h
    obtain ⟨-, evs₁, evs₂, h1, h2, he⟩ := swift_addNewDSOImage_ok h
    rw [htm] at h2
    simp at h2
    subst h2
    simp at he
    subst he
    cases hpc : g.protocolConformanceArgs.didInitializeLookup with
    | true =>
        rw [hpc] at h1
        simp at h1
        refine ⟨fun e he' => ?_, fun _ => h1⟩
        cases e with
        | addBlock r d sz =>
            have hr := (addBlockInImage_addBlock h1 r d sz he').2
            rw [hcb] at hr
            subst hr
            simp [Event.regOf]
        | dlopenOk n => simp [Event.regOf]
        | dlopenFail n => simp [Event.regOf]
        | dlclose n => simp [Event.regOf]
    | false =>
        rw [hpc] at h1
        simp at h1
        subst h1
        exact ⟨by simp, fun hcon => Bool.noConfusion hcon⟩
  · intro p g addr hpc htm
    simp [swift_addNewDSOImage, hpc, htm]

/-- Witness for C4: on `demoPlatform`, with only the type-metadata registry
initialized, a null-address notification runs exactly that registry's
`addBlockInImage` (which finds no type-metadata section and fires no
callback). -/
theorem uninitialized_registry_skipped_witness :
    addBlockInImage demoPlatform halfReadyGlobalState.typeMetadataRecordArgs 0 =
      .ok [.dlopenOk none, .dlclose none] :=
  (uninitialized_registry_skipped.1 demoPlatform halfReadyGlobalState 0
      halfReadyGlobalState [.dlopenOk none, .dlclose none] rfl rfl rfl).2 rfl

/-- C5 counterexample: with both registries initialized, notifying the
null address is not a no-op — section lookups of the main executable are
performed (handles opened and closed) and the protocol-conformance
accumulation callback fires, because `addBlockInImage` treats a null
address as the main executable rather than returning early. -/
theorem swift_addNewDSOImage_null_not_noop :
    swift_addNewDSOImage demoPlatform readyGlobalState 0 =
      .ok (readyGlobalState,
        [.dlopenOk none, .dlclose none,
         .addBlock RegId.protocolConformance (some (100 + 8)) 16,
         .dlopenOk none, .dlclose none]) ∧
    Event.addBlock RegId.protocolConformance (some (100 + 8)) 16 ∈
      [Event.dlopenOk (none : Option String), .dlclose none,
       .addBlock RegId.protocolConformance (some (100 + 8)) 16,
       .dlopenOk none, .dlclose none] :=
  ⟨rfl, by simp⟩

/-- C5 (amended): calling the load-notification entry point with a null
address is not a no-op: the null address selects the main executable
(no address resolution is attempted), so each registry whose flag is true
performs a main-executable section lookup, invoking its accumulation
callback exactly when the section symbol is present with a nonzero length
prefix; only registries whose flag is false do nothing. -/
theorem nullAddress_targets_main_executable :
    (∀ (p : Platform) (args : InspectArgs) (hd : Handle),
       p.dlopenNoload none = .ok hd →
       (∀ addr : Nat, findSymbol hd.symbols args.symbolName = some addr →
          (0 < readU64 p.mem addr →
            addBlockInImage p args 0 =
              .ok [.dlopenOk none, .dlclose none,
                   .addBlock args.addBlock (some (addr + 8))
                     (readU64 p.mem addr)]) ∧
          (readU64 p.mem addr = 0 →
            addBlockInImage p args 0 =
              .ok [.dlopenOk none, .dlclose none])) ∧
       (findSymbol hd.symbols args.symbolName = none →
          addBlockInImage p args 0 =
            .ok [.dlopenOk none, .dlclose none])) ∧
    (∀ (p : Platform) (g : GlobalState) (evs : List Event),
       g.protocolConformanceArgs.didInitializeLookup = true →
       g.typeMetadataRecordArgs.didInitializeLookup = false →
       addBlockInImage p g.protocolConformanceArgs 0 = .ok evs →
       swift_addNewDSOImage p g 0 = .ok (g, evs)) := by
  constructor
  · intro p args hd hopen
    have hres : resolveImageName p 0 = some none := by simp [resolveImageName]
    constructor
    · intro addr hsym
      constructor
      · intro hpos
        simp [addBlockInImage, hres, getSectionInfo, hopen, hsym, hpos]
      · intro hzero
        simp [addBlockInImage, hres, getSectionInfo, hopen, hsym, hzero]
    · intro hsym
      simp [addBlockInImage, hres, getSectionInfo, hopen, hsym]
  · intro p g evs hpc htm habi
    simp [swift_addNewDSOImage, hpc, htm, habi]

/-- Witness for the amended C5: on `demoPlatform` a null address makes the
initialized conformance registry look up the main executable and fire its
callback with the 16-byte payload at address 108. -/
theorem nullAddress_targets_main_executable_witness :
    addBlockInImage demoPlatform
        { symbolName := ProtocolConformancesSymbol
          addBlock := RegId.protocolConformance
          didInitializeLookup := true } 0 =
      .ok [.dlopenOk none, .dlclose none,
           .addBlock RegId.protocolConformance (some (100 + 8))
             (readU64 demoPlatform.mem 100)] :=
  ((nullAddress_targets_main_executable.1 demoPlatform
      { symbolName := ProtocolConformancesSymbol
        addBlock := RegId.protocolConformance
        didInitializeLookup := true }
      demoHandle rfl).1 100 rfl).1 (by decide)

/-- C6: a non-fatal `initializeSectionLookup` queries the main executable
exactly once (through the explicit null-image path) and, for every
nonempty image name, exactly as often as the enumeration presents that
name — hence at most once each when the enumeration is duplicate-free —
while enumeration entries with a null or empty name are never queried. -/
theorem initialize_visits_once :
    ∀ (p : Platform) (args args' : InspectArgs) (evs : List Event),
      initializeSectionLookup p args = .ok (args', evs) →
      countQueries none evs = 1 ∧
      countQueries (some "") evs = 0 ∧
      (∀ s : String, s ≠ "" →
        countQueries (some s) evs = countName (some s) p.phdrImages) ∧
      (p.phdrImages.Nodup → ∀ s : String, countQueries (some s) evs ≤ 1) := by
  intro p args args' evs h
  cases hm : addBlockInImage p args 0 with
  | fatal i e => simp [initializeSectionLookup, hm] at h
  | ok evs₀ =>
      cases hrun : dlIteratePhdr p args with
      | fatal i e => simp [initializeSectionLookup, hm, hrun] at h
      | ok w =>
          obtain ⟨args₂, evs₂⟩ := w
          simp [initializeSectionLookup, hm, hrun] at h
          obtain ⟨-, he⟩ := h
          subst he
          obtain ⟨hm1, hms⟩ := addBlockInImage_null_counts hm
          obtain ⟨hr0, hrs⟩ := runPHDRList_counts p.phdrImages p args args₂ evs₂ hrun
          refine ⟨?_, ?_, ?_, ?_⟩
          · rw [countQueries_append, hm1, hr0]
          · rw [countQueries_append, hms "", hrs ""]
            simp
          · intro s hs
            rw [countQueries_append, hms s, hrs s, if_neg hs]
            simp
          · intro hnd s
            by_cases hs : s = ""
            · subst hs
              rw [countQueries_append, hms "", hrs ""]
              simp
            · rw [countQueries_append, hms s, hrs s, if_neg hs]
              simpa using countName_nodup hnd (some s)

/-- Witness for C6: the full initialization run on `demoPlatform` opens the
main executable exactly once. -/
theorem initialize_visits_once_witness :
    countQueries none
      [Event.dlopenOk none, Event.dlclose none,
       Event.addBlock RegId.protocolConformance (some (100 + 8)) 16,
       Event.dlopenOk (some "libdemo.so"), Event.dlclose (some "libdemo.so"),
       Event.addBlock RegId.protocolConformance (some (100 + 8)) 16] = 1 :=
  (initialize_visits_once demoPlatform ProtocolConformanceArgs
      { symbolName := ProtocolConformancesSymbol
        addBlock := RegId.protocolConformance
        didInitializeLookup := true }
      [Event.dlopenOk none, Event.dlclose none,
       Event.addBlock RegId.protocolConformance (some (100 + 8)) 16,
       Event.dlopenOk (some "libdemo.so"), Event.dlclose (some "libdemo.so"),
       Event.addBlock RegId.protocolConformance (some (100 + 8)) 16]
      rfl).1

/-- C7: on either the initialization path or the load-notification path,
every accumulation callback that fires carries a strictly positive byte
length — an absent section or a zero length prefix never produces one. -/
theorem accumulation_requires_positive_size :
    (∀ (p : Platform) (args args' : InspectArgs) (evs : List Event),
       initializeSectionLookup p args = .ok (args', evs) →
       ∀ r d sz, Event.addBlock r d sz ∈ evs → 0 < sz) ∧
    (∀ (p : Platform) (g : GlobalState) (addr : Nat) (g' : GlobalState)
       (evs : List Event),
       swift_addNewDSOImage p g addr = .ok (g', evs) →
       ∀ r d sz, Event.addBlock r d sz ∈ evs → 0 < sz) := by
  constructor
  · intro p args args' evs h r d sz hmem
    cases hm : addBlockInImage p args 0 with
    | fatal i e => simp [initializeSectionLookup, hm] at h
    | ok evs₀ =>
        cases hrun : dlIteratePhdr p args with
        | fatal i e => simp [initializeSectionLookup, hm, hrun] at h
        | ok w =>
            obtain ⟨args₂, evs₂⟩ := w
            simp [initializeSectionLookup, hm, hrun] at h
            obtain ⟨-, he⟩ := h
            subst he
            rcases List.mem_append.mp hmem with hin | hin
            · exact (addBlockInImage_addBlock hm r d sz hin).1
            · exact (runPHDRList_addBlock p.phdrImages p args args₂ evs₂
                hrun r d sz hin).1
  · intro p g addr g' evs h r d sz hmem
    obtain ⟨-, evs₁, evs₂, h1, h2, he⟩ := swift_addNewDSOImage_ok h
    subst he
    rcases List.mem_append.mp hmem with hin | hin
    · cases hpc : g.protocolConformanceArgs.didInitializeLookup <;>
        rw [hpc] at h1 <;> simp at h1
      · subst h1
        simp at hin
      · exact (addBlockInImage_addBlock h1 r d sz hin).1
    · cases htm : g.typeMetadataRecordArgs.didInitializeLookup <;>
        rw [htm] at h2 <;> simp at h2
      · subst h2
        simp at hin
      · exact (addBlockInImage_addBlock h2 r d sz hin).1

/-- Witness for C7: the callback fired during the demo initialization run
indeed carries the positive size 16. -/
theorem accumulation_requires_positive_size_witness : (0 : Nat) < 16 :=
  accumulation_requires_positive_size.1 demoPlatform ProtocolConformanceArgs
    { symbolName := ProtocolConformancesSymbol
      addBlock := RegId.protocolConformance
      didInitializeLookup := true }
    [Event.dlopenOk none, Event.dlclose none,
     Event.addBlock RegId.protocolConformance (some (100 + 8)) 16,
     Event.dlopenOk (some "libdemo.so"), Event.dlclose (some "libdemo.so"),
     Event.addBlock RegId.protocolConformance (some (100 + 8)) 16]
    rfl RegId.protocolConformance (some (100 + 8)) 16 (by simp)

/-- C8: for a non-null address, when `dladdr` cannot attribute the address
to an image, `lookupSymbol` returns 0 and `addBlockInImage` returns
without any work or fatal path (also when `dladdr` reports a null file
name); when attribution succeeds, `lookupSymbol` returns the owning
image's file path, its base address, and the nearest symbol's name and
address. -/
theorem address_resolution_contract :
    (∀ (p : Platform) (address : Nat) (info : SymbolInfo),
       p.dladdr address = none → lookupSymbol p address info = (0, info)) ∧
    (∀ (p : Platform) (address : Nat) (info : SymbolInfo) (d : DlInfo),
       p.dladdr address = some d →
       lookupSymbol p address info =
         (1, { fileName := d.dli_fname, baseAddress := d.dli_fbase,
               symbolName := d.dli_sname, symbolAddress := d.dli_saddr })) ∧
    (∀ (p : Platform) (args : InspectArgs) (addr : Nat),
       addr ≠ 0 → p.dladdr addr = none →
       addBlockInImage p args addr = .ok []) ∧
    (∀ (p : Platform) (args : InspectArgs) (addr : Nat) (d : DlInfo),
       addr ≠ 0 → p.dladdr addr = some d → d.dli_fname = none →
       addBlockInImage p args addr = .ok []) := by
  refine ⟨?_, ?_, ?_, ?_⟩
  · intro p address info h
    simp [lookupSymbol, h]
  · intro p address info d h
    simp [lookupSymbol, h]
  · intro p args addr h0 hd
    simp [addBlockInImage, resolveImageName, h0, hd]
  · intro p args addr d h0 hd hf
    simp [addBlockInImage, resolveImageName, h0, hd, hf]

/-- Witness for C8: `resolvePlatform.dladdr` attributes address 500 to
`libdemo.so` based at 400 with nearest symbol `swift_demo` at 480, and
`lookupSymbol` returns exactly these fields. -/
theorem address_resolution_contract_witness :
    lookupSymbol resolvePlatform 500
        { fileName := none, baseAddress := 0,
          symbolName := none, symbolAddress := 0 } =
      (1, { fileName := some "libdemo.so", baseAddress := 400,
            symbolName := some "swift_demo", symbolAddress := 480 }) :=
  address_resolution_contract.2.1 resolvePlatform 500
    { fileName := none, baseAddress := 0,
      symbolName := none, symbolAddress := 0 }
    { dli_fname := some "libdemo.so", dli_fbase := 400,
      dli_sname := some "swift_demo", dli_saddr := 480 } rfl

end ImageInspectionELF
